import Mathlib

/-!
Verification of the plugin subsystem of `src/libaudcore/plugin-load.c`.

The C code is shallowly embedded: the loaded-module list (`loaded_modules`)
becomes an explicit `List LoadedModule` threaded through the operations, and
the observable side effects (module close, `init`/`cleanup` hook invocation,
registry load/save/prune, directory scans, plugin registration, stat errors)
become an explicit `Event` trace, so that ordering and multiplicity of the
effects can be stated and proved.

Constants coming from `plugin.h` (the magic value, the supported version
range) are not part of the excerpt; they are abstracted into a `Config`
record and every theorem is parametric in it.
-/

/-- Plugin kinds. Modelled from the spec: the `PLUGIN_TYPE_*` enumeration
lives in `plugin.h`, which is not part of the excerpt; the spec names the
seven kinds Transport, Playlist, Input, Output, Effect, General,
Visualization. -/
inductive PluginType where
  | transport
  | playlist
  | input
  | output
  | effect
  | general
  | visualization
  deriving DecidableEq, Repr

/-- The plugin descriptor (`Plugin` struct exported as `_aud_plugin_self`).
Modelled from the spec: the struct itself is declared in `plugin.h`, not in
the excerpt.  `hasInit`/`hasCleanup` stand for `PLUGIN_HAS_FUNC (header,
init)` / `PLUGIN_HAS_FUNC (header, cleanup)` (an optional function pointer
being present), and `initResult` is the boolean value that the `init` hook
returns when invoked. -/
structure Plugin where
  magic : Int
  version : Int
  type : PluginType
  hasInit : Bool
  initResult : Bool
  hasCleanup : Bool
  deriving DecidableEq, Repr

/-- A dynamic module as seen by `plugin_load` after `g_module_open`
succeeded: the only thing the loader reads from it is the
`_aud_plugin_self` symbol, which is either absent or a plugin descriptor. -/
structure GModule where
  self : Option Plugin
  deriving DecidableEq, Repr

/-- Compile-time constants from `plugin.h` (not in the excerpt):
`_AUD_PLUGIN_MAGIC`, `_AUD_PLUGIN_VERSION_MIN`, `_AUD_PLUGIN_VERSION`.
All theorems are parametric in them. -/
structure Config where
  magic : Int
  versionMin : Int
  version : Int
  deriving DecidableEq, Repr

/-- Embedding of the C struct `LoadedModule { Plugin * header; GModule *
module; }` (plugin-load.c:47-50).  The module handle is identified by the
filename it was opened from. -/
structure LoadedModule where
  header : Plugin
  module : String
  deriving DecidableEq, Repr

/-- The error taxonomy of the spec, read off the stderr branches of
`plugin_load`. -/
inductive LoadError where
  | openFailed
  | notAPlugin
  | incompatibleVersion
  | initFailed
  deriving DecidableEq, Repr

/-- Observable side effects of the plugin subsystem, in the order they
occur. -/
inductive Event where
  | initCall (filename : String)
  | cleanupCall (filename : String)
  | closeMod (filename : String)
  | registryLoad
  | registrySave
  | registryPrune
  | scanDir (dir : String)
  | registerPlugin (path : String) (mtime : Int)
  | statError (path : String)
  deriving DecidableEq, Repr

/-- Result of one `plugin_load` call: the returned header (NULL = `none`),
which error branch was taken if any, the loaded-module list afterwards, and
the trace of effects performed by the call. -/
structure LoadResult where
  ret : Option Plugin
  err : Option LoadError
  st : List LoadedModule
  events : List Event
  deriving DecidableEq, Repr

/-- The switch cases of plugin-load.c:87-90 and 116-119: the four kinds
with load-time/unload-time hooks. -/
def fourKind : PluginType → Bool
  | .transport => true
  | .playlist => true
  | .input => true
  | .effect => true
  | _ => false

/-- Embedding of `plugin_load` (plugin-load.c:55-108).  `opened` is the
result of `g_module_open (filename, ...)` (`none` when the open fails);
`st` is the current `loaded_modules` list.  The success path prepends a
`LoadedModule` (g_list_prepend, plugin-load.c:101-104). -/
def plugin_load (cfg : Config) (filename : String) (opened : Option GModule)
    (st : List LoadedModule) : LoadResult :=
  match opened with
  | none =>
    { ret := none, err := some LoadError.openFailed, st := st, events := [] }
  | some module =>
    match module.self with
    | none =>
      { ret := none, err := some LoadError.notAPlugin, st := st,
        events := [Event.closeMod filename] }
    | some header =>
      if header.magic ≠ cfg.magic then
        { ret := none, err := some LoadError.notAPlugin, st := st,
          events := [Event.closeMod filename] }
      else if header.version < cfg.versionMin ∨ header.version > cfg.version then
        { ret := none, err := some LoadError.incompatibleVersion, st := st,
          events := [Event.closeMod filename] }
      else
        let ok : List Event → LoadResult := fun evs =>
          { ret := some header, err := none,
            st := { header := header, module := filename } :: st,
            events := evs }
        if fourKind header.type then
          if header.hasInit then
            if header.initResult then
              ok [Event.initCall filename]
            else
              { ret := none, err := some LoadError.initFailed, st := st,
                events := [Event.initCall filename, Event.closeMod filename] }
          else ok []
        else ok []

/-- Embedding of `plugin2_unload` (plugin-load.c:110-131): the `cleanup`
hook runs for the four hook-bearing kinds when present, then the module is
closed — unless the build is `VALGRIND_FRIENDLY` (`vf`), in which case the
`g_module_close` call is compiled out. -/
def plugin2_unload (vf : Bool) (loaded : LoadedModule) : List Event :=
  (if fourKind loaded.header.type && loaded.header.hasCleanup then
    [Event.cleanupCall loaded.module]
  else []) ++
  (if vf then [] else [Event.closeMod loaded.module])

/-- The `for` loop of plugin-load.c:180-181: unload every entry of
`loaded_modules` in list order. -/
def unload_loop (vf : Bool) : List LoadedModule → List Event
  | [] => []
  | l :: rest => plugin2_unload vf l ++ unload_loop vf rest

/-- Embedding of `plugin_system_cleanup` (plugin-load.c:176-185): save the
registry, unload every loaded module, then clear the list.  Returns the new
`loaded_modules` list and the event trace of the call. -/
def plugin_system_cleanup (vf : Bool) (st : List LoadedModule) :
    List LoadedModule × List Event :=
  ([], Event.registrySave :: unload_loop vf st)

/-- Modelled from the spec: `str_has_suffix_nocase` (declared in
`audstrings.h`, not in the excerpt) — case-insensitive suffix test. -/
def str_has_suffix_nocase (s sfx : String) : Bool :=
  s.toLower.endsWith sfx.toLower

/-- Result of `g_stat` on a path: whether the target (after following
symlinks, as `stat` does) is a regular file, and its modification time. -/
structure FileStat where
  isReg : Bool
  mtime : Int
  deriving DecidableEq, Repr

/-- One entry seen while walking a plugin directory: its full path, its
basename, and the result of `g_stat` on it (`none` when stat fails). -/
structure DirEntry where
  path : String
  basename : String
  statResult : Option FileStat
  deriving DecidableEq, Repr

/-- Embedding of `scan_plugin_func` (plugin-load.c:135-151): skip names
without the plugin suffix, report and skip entries whose stat fails,
register regular files with their mtime.  Returns the emitted events and
the C return value (always FALSE: never abort the walk). -/
def scan_plugin_func (sfx : String) (e : DirEntry) : List Event × Bool :=
  if ! str_has_suffix_nocase e.basename sfx then ([], false)
  else
    match e.statResult with
    | none => ([Event.statError e.path], false)
    | some s =>
      (if s.isReg then [Event.registerPlugin e.path s.mtime] else [], false)

/-- Modelled from the spec: `dir_foreach` (not in the excerpt) walks the
entries of a directory, invoking the callback on each; a `true` return from
the callback stops the walk. -/
def dir_foreach (entries : List DirEntry) (f : DirEntry → List Event × Bool) :
    List Event :=
  match entries with
  | [] => []
  | e :: rest =>
    let r := f e
    if r.2 then r.1 else r.1 ++ dir_foreach rest f

/-- Embedding of `scan_plugins` (plugin-load.c:153-156). -/
def scan_plugins (sfx : String) (entries : List DirEntry) : List Event :=
  dir_foreach entries (scan_plugin_func sfx)

/-- The `plugin_dir_list` array (plugin-load.c:37-45). -/
def plugin_dir_list : List String :=
  ["Transport", "Container", "Input", "Output", "Effect", "General",
   "Visualization"]

/-- The scan loop of plugin-load.c:166-171: scan each directory of
`plugin_dir_list` in order.  `contents` gives the directory entries found
under each subdirectory name. -/
def scan_loop (sfx : String) (contents : String → List DirEntry) :
    List String → List Event
  | [] => []
  | d :: rest =>
    Event.scanDir d :: (scan_plugins sfx (contents d) ++ scan_loop sfx contents rest)

/-- Embedding of `plugin_system_init` (plugin-load.c:158-174): load the
persisted registry, scan the seven kind subdirectories in order, then
prune the registry once. -/
def plugin_system_init (sfx : String) (contents : String → List DirEntry) :
    List Event :=
  Event.registryLoad :: (scan_loop sfx contents plugin_dir_list ++ [Event.registryPrune])

/-- Operations a client can perform on the loaded-set: a `plugin_load`
call (with the outcome of the module open), or a full shutdown. -/
inductive PlugOp where
  | loadOp (filename : String) (opened : Option GModule)
  | unloadAllOp
  deriving Repr

/-- Run a sequence of load/unload operations against the loaded-set. -/
def runOps (cfg : Config) (vf : Bool) :
    List PlugOp → List LoadedModule → List LoadedModule
  | [], st => st
  | .loadOp fn opened :: rest, st =>
    runOps cfg vf rest (plugin_load cfg fn opened st).st
  | .unloadAllOp :: rest, st =>
    runOps cfg vf rest (plugin_system_cleanup vf st).1

/-- The filenames passed to the load operations of a sequence, in order. -/
def loadPaths : List PlugOp → List String
  | [] => []
  | .loadOp fn _ :: rest => fn :: loadPaths rest
  | .unloadAllOp :: rest => loadPaths rest

/-- Event classifiers used by the theorems below. -/
def isCleanupEv : Event → Bool
  | .cleanupCall _ => true
  | _ => false

def isCloseEv : Event → Bool
  | .closeMod _ => true
  | _ => false

def isCleanupOrClose (e : Event) : Bool := isCleanupEv e || isCloseEv e

def isRegisterEv : Event → Bool
  | .registerPlugin _ _ => true
  | _ => false

def isStatErrorEv : Event → Bool
  | .statError _ => true
  | _ => false

def isScanDirEv : Event → Bool
  | .scanDir _ => true
  | _ => false

def isRegistryLoadEv : Event → Bool
  | .registryLoad => true
  | _ => false

def isPruneEv : Event → Bool
  | .registryPrune => true
  | _ => false

/-- An entry of the plugin whose `cleanup` hook `plugin2_unload` runs. -/
def needsCleanup (l : LoadedModule) : Bool :=
  fourKind l.header.type && l.header.hasCleanup

/-- A scan candidate: plugin suffix (case-insensitive) and a regular file
(checked on the stat result, which follows symlinks). -/
def isCandidate (sfx : String) (e : DirEntry) : Bool :=
  str_has_suffix_nocase e.basename sfx &&
    (match e.statResult with
     | some s => s.isReg
     | none => false)

/-- The registration event a candidate entry produces. -/
def regEventOf (e : DirEntry) : Event :=
  Event.registerPlugin e.path
    (match e.statResult with
     | some s => s.mtime
     | none => 0)

/-- Concrete instances used by witnesses and counterexamples. -/
def cfg0 : Config := { magic := 1234, versionMin := 1, version := 10 }

def pGood : Plugin :=
  { magic := 1234, version := 5, type := PluginType.input, hasInit := true,
    initResult := true, hasCleanup := true }

def mGood : GModule := { self := some pGood }

def mEmpty : GModule := { self := none }

def pBadInit : Plugin :=
  { magic := 1234, version := 5, type := PluginType.effect, hasInit := true,
    initResult := false, hasCleanup := false }

def mBadInit : GModule := { self := some pBadInit }

def pBadMagic : Plugin :=
  { magic := 999, version := 5, type := PluginType.general, hasInit := false,
    initResult := true, hasCleanup := false }

def mBadMagic : GModule := { self := some pBadMagic }

def pInput : Plugin :=
  { magic := 1234, version := 5, type := PluginType.input, hasInit := true,
    initResult := true, hasCleanup := true }

lemma plugin2_unload_events (vf : Bool) (l : LoadedModule) :
    ∀ e ∈ plugin2_unload vf l, isCleanupOrClose e = true := by
  intro e he
  have hor : e = Event.cleanupCall l.module ∨ e = Event.closeMod l.module := by
    cases hc : fourKind l.header.type && l.header.hasCleanup <;> cases vf <;>
      simp [plugin2_unload, hc] at he <;> tauto
  rcases hor with h | h <;> simp [h, isCleanupOrClose, isCleanupEv, isCloseEv]

lemma unload_loop_events (vf : Bool) (st : List LoadedModule) :
    (unload_loop vf st).all isCleanupOrClose = true := by
  induction st with
  | nil => rfl
  | cons l rest ih =>
    rw [unload_loop, List.all_append, Bool.and_eq_true]
    exact ⟨List.all_eq_true.2 (fun e he => plugin2_unload_events vf l e he), ih⟩

/-- C1 (amended): at shutdown, `plugin_system_cleanup` performs the
registry save FIRST — before `unloadAll` — and everything after it in the
shutdown trace is a cleanup hook or a module close. -/
theorem registry_save_before_unloadAll (vf : Bool) (st : List LoadedModule) :
    (plugin_system_cleanup vf st).2.head? = some Event.registrySave ∧
    (plugin_system_cleanup vf st).2.tail.all isCleanupOrClose = true := by
  exact ⟨rfl, unload_loop_events vf st⟩

/-- C1 counterexample: with one loaded input plugin that has a cleanup
hook, the shutdown trace is save-then-cleanup-then-close, so the registry
save does NOT occur after the plugin's cleanup and module close — the save
comes first, refuting the claim as stated. -/
theorem registry_save_precedes_unload_cex :
    (plugin_system_cleanup false [{ header := pInput, module := "p.so" }]).2 =
      [Event.registrySave, Event.cleanupCall "p.so", Event.closeMod "p.so"] ∧
    ¬ ((plugin_system_cleanup false [{ header := pInput, module := "p.so" }]).2.indexOf
          (Event.cleanupCall "p.so") <
        (plugin_system_cleanup false [{ header := pInput, module := "p.so" }]).2.indexOf
          Event.registrySave) := by decide

lemma plugin2_unload_filter_cleanup (vf : Bool) (l : LoadedModule) :
    (plugin2_unload vf l).filter isCleanupEv =
      if needsCleanup l then [Event.cleanupCall l.module] else [] := by
  cases hc : fourKind l.header.type && l.header.hasCleanup <;> cases vf <;>
    simp [plugin2_unload, needsCleanup, hc, isCleanupEv]

lemma unload_loop_filter_cleanup (vf : Bool) (st : List LoadedModule) :
    (unload_loop vf st).filter isCleanupEv =
      (st.filter needsCleanup).map (fun l => Event.cleanupCall l.module) := by
  induction st with
  | nil => rfl
  | cons l rest ih =>
    rw [unload_loop, List.filter_append, plugin2_unload_filter_cleanup, ih]
    cases hc : needsCleanup l <;> simp [hc, List.filter_cons]

/-- C6: `unloadAll` (the unload part of `plugin_system_cleanup`) invokes
the cleanup hook exactly once for each loaded plugin whose kind is
Transport, Playlist, Input or Effect and which has a cleanup hook — and
for no other plugin — and afterwards the loaded-set is empty. -/
theorem unloadAll_cleanup_exact (vf : Bool) (st : List LoadedModule) :
    (plugin_system_cleanup vf st).2.filter isCleanupEv =
      (st.filter needsCleanup).map (fun l => Event.cleanupCall l.module) ∧
    (plugin_system_cleanup vf st).1 = [] := by
  refine ⟨?_, rfl⟩
  show (Event.registrySave :: unload_loop vf st).filter isCleanupEv = _
  rw [List.filter_cons]
  simp [isCleanupEv, unload_loop_filter_cleanup]

lemma plugin2_unload_filter_close (l : LoadedModule) :
    (plugin2_unload false l).filter isCloseEv = [Event.closeMod l.module] := by
  cases hc : fourKind l.header.type && l.header.hasCleanup <;>
    simp [plugin2_unload, hc, isCloseEv, isCleanupEv]

lemma unload_loop_filter_close (st : List LoadedModule) :
    (unload_loop false st).filter isCloseEv =
      st.map (fun l => Event.closeMod l.module) := by
  induction st with
  | nil => rfl
  | cons l rest ih =>
    rw [unload_loop, List.filter_append, plugin2_unload_filter_close, ih]
    rfl

/-- C7: `plugin_system_cleanup` is idempotent — a second call right after
a first one performs no further cleanup or close (its trace contains
neither), the loaded-set stays empty, and in a single (non-valgrind)
shutdown each loaded entry's module handle is closed exactly once. -/
theorem unloadAll_idempotent (vf : Bool) (st : List LoadedModule) :
    (plugin_system_cleanup vf ((plugin_system_cleanup vf st).1)).2.filter
        isCleanupOrClose = [] ∧
    (plugin_system_cleanup vf ((plugin_system_cleanup vf st).1)).1 = [] ∧
    (plugin_system_cleanup false st).2.filter isCloseEv =
      st.map (fun l => Event.closeMod l.module) := by
  refine ⟨rfl, rfl, ?_⟩
  show (Event.registrySave :: unload_loop false st).filter isCloseEv = _
  rw [List.filter_cons]
  simp [isCloseEv, unload_loop_filter_close]

lemma plugin_load_st_cases (cfg : Config) (fn : String) (opened : Option GModule)
    (st : List LoadedModule) :
    (plugin_load cfg fn opened st).st.map LoadedModule.module =
        st.map LoadedModule.module ∨
    (plugin_load cfg fn opened st).st.map LoadedModule.module =
        fn :: st.map LoadedModule.module := by
  rcases opened with _ | m
  · exact Or.inl rfl
  · rcases hself : m.self with _ | hdr
    · simp [plugin_load, hself]
    · by_cases h1 : hdr.magic ≠ cfg.magic
      · simp [plugin_load, hself, h1]
      · by_cases h2 : hdr.version < cfg.versionMin ∨ hdr.version > cfg.version
        · simp [plugin_load, hself, h1, h2]
        · cases h3 : fourKind hdr.type
          · simp [plugin_load, hself, h1, h2, h3]
          · cases h4 : hdr.hasInit
            · simp [plugin_load, hself, h1, h2, h3, h4]
            · cases h5 : hdr.initResult <;>
                simp [plugin_load, hself, h1, h2, h3, h4, h5]

lemma runOps_module_sublist (cfg : Config) (vf : Bool) (ops : List PlugOp) :
    ∀ st : List LoadedModule,
      ((runOps cfg vf ops st).map LoadedModule.module).Sublist
        ((loadPaths ops).reverse ++ st.map LoadedModule.module) := by
  induction ops with
  | nil => intro st; simp [runOps, loadPaths]
  | cons op rest ih =>
    intro st
    cases op with
    | loadOp fn opened =>
      have h := ih (plugin_load cfg fn opened st).st
      rw [runOps]
      simp only [loadPaths, List.reverse_cons, List.append_assoc,
        List.singleton_append]
      rcases plugin_load_st_cases cfg fn opened st with hc | hc
      · rw [hc] at h
        exact h.trans (List.Sublist.append_left (List.sublist_cons_self fn _) _)
      · rw [hc] at h
        exact h
    | unloadAllOp =>
      have h := ih []
      rw [runOps]
      simp only [loadPaths]
      show List.Sublist _ ((loadPaths rest).reverse ++ st.map LoadedModule.module)
      refine List.Sublist.trans ?_ (List.sublist_append_left _ _)
      simpa using h

/-- C2 counterexample: loading the same path twice (same valid module both
times) produces two entries with that path in the loaded-set —
`plugin_load` prepends unconditionally, with no duplicate check. -/
theorem duplicate_path_cex :
    ¬ ((runOps cfg0 false
          [PlugOp.loadOp "p.so" (some mGood), PlugOp.loadOp "p.so" (some mGood)]
          []).map LoadedModule.module).Nodup := by decide

/-- C2 (amended): a successful load prepends exactly one entry and a
shutdown clears the set, so as long as no two load operations in the
sequence use the same path, the loaded-set never contains two entries with
the same path.  Loading the same path twice, however, does produce two
entries (see the counterexample). -/
theorem loaded_set_nodup_of_distinct_paths (cfg : Config) (vf : Bool)
    (ops : List PlugOp) (h : (loadPaths ops).Nodup) :
    ((runOps cfg vf ops []).map LoadedModule.module).Nodup := by
  have hs := runOps_module_sublist cfg vf ops []
  simp only [List.map_nil, List.append_nil] at hs
  exact hs.nodup (List.nodup_reverse.2 h)

theorem loaded_set_nodup_of_distinct_paths_witness :
    (loadPaths [PlugOp.loadOp "a.so" (some mGood),
        PlugOp.loadOp "b.so" (some mGood)]).Nodup ∧
    ((runOps cfg0 false
        [PlugOp.loadOp "a.so" (some mGood), PlugOp.loadOp "b.so" (some mGood)]
        []).map LoadedModule.module).Nodup :=
  ⟨by decide, loaded_set_nodup_of_distinct_paths cfg0 false _ (by decide)⟩

/-- C3: a module exporting the descriptor symbol with the right magic, a
version within the supported range, and an init hook that succeeds when
its kind requires one and it is present, loads successfully: `plugin_load`
returns the descriptor and prepends a `LoadedModule` entry holding the
descriptor and the module handle. -/
theorem valid_plugin_load_succeeds (cfg : Config) (fn : String) (m : GModule)
    (hdr : Plugin) (st : List LoadedModule)
    (hself : m.self = some hdr)
    (hmagic : hdr.magic = cfg.magic)
    (hlo : cfg.versionMin ≤ hdr.version)
    (hhi : hdr.version ≤ cfg.version)
    (hinit : fourKind hdr.type = true → hdr.hasInit = true →
      hdr.initResult = true) :
    (plugin_load cfg fn (some m) st).ret = some hdr ∧
    (plugin_load cfg fn (some m) st).st =
      { header := hdr, module := fn } :: st := by
  have h2 : ¬ (hdr.version < cfg.versionMin ∨ hdr.version > cfg.version) := by
    omega
  cases h3 : fourKind hdr.type
  · simp [plugin_load, hself, hmagic, h2, h3]
  · cases h4 : hdr.hasInit
    · simp [plugin_load, hself, hmagic, h2, h3, h4]
    · have h5 := hinit h3 h4
      simp [plugin_load, hself, hmagic, h2, h3, h4, h5]

theorem valid_plugin_load_succeeds_witness :
    mGood.self = some pGood ∧ pGood.magic = cfg0.magic ∧
    cfg0.versionMin ≤ pGood.version ∧ pGood.version ≤ cfg0.version ∧
    ((plugin_load cfg0 "a.so" (some mGood) []).ret = some pGood ∧
     (plugin_load cfg0 "a.so" (some mGood) []).st =
       [{ header := pGood, module := "a.so" }]) :=
  ⟨rfl, rfl, by decide, by decide,
    valid_plugin_load_succeeds cfg0 "a.so" mGood pGood [] rfl rfl (by decide)
      (by decide) (by decide)⟩

/-- C4: `plugin_load` fails with `NotAPlugin` exactly when the descriptor
symbol is absent or the descriptor's magic mismatches; it fails with
`IncompatibleVersion` exactly when a descriptor with the right magic has a
version outside `[versionMin, version]` (the checks run in that order); in
both failure cases the loaded-set is unchanged and NULL is returned. -/
theorem load_error_classification (cfg : Config) (fn : String) (m : GModule)
    (st : List LoadedModule) :
    ((plugin_load cfg fn (some m) st).err = some LoadError.notAPlugin ↔
      m.self = none ∨ ∃ hdr, m.self = some hdr ∧ hdr.magic ≠ cfg.magic) ∧
    ((plugin_load cfg fn (some m) st).err = some LoadError.incompatibleVersion ↔
      ∃ hdr, m.self = some hdr ∧ hdr.magic = cfg.magic ∧
        (hdr.version < cfg.versionMin ∨ hdr.version > cfg.version)) ∧
    (((plugin_load cfg fn (some m) st).err = some LoadError.notAPlugin ∨
        (plugin_load cfg fn (some m) st).err =
          some LoadError.incompatibleVersion) →
      (plugin_load cfg fn (some m) st).st = st ∧
      (plugin_load cfg fn (some m) st).ret = none) := by
  rcases hself : m.self with _ | hdr
  · simp [plugin_load, hself]
  · by_cases h1 : hdr.magic ≠ cfg.magic
    · simp [plugin_load, hself, h1]
    · rw [not_not] at h1
      by_cases h2 : hdr.version < cfg.versionMin ∨ hdr.version > cfg.version
      · simp [plugin_load, hself, h1, h2]
      · cases h3 : fourKind hdr.type
        · simp [plugin_load, hself, h1, h2, h3]
        · cases h4 : hdr.hasInit
          · simp [plugin_load, hself, h1, h2, h3, h4]
          · cases h5 : hdr.initResult <;>
              simp [plugin_load, hself, h1, h2, h3, h4, h5]

theorem load_error_classification_witness :
    ((plugin_load cfg0 "x.so" (some mBadMagic) []).err =
        some LoadError.notAPlugin ↔
      mBadMagic.self = none ∨
        ∃ hdr, mBadMagic.self = some hdr ∧ hdr.magic ≠ cfg0.magic) ∧
    ((plugin_load cfg0 "x.so" (some mBadMagic) []).err =
        some LoadError.incompatibleVersion ↔
      ∃ hdr, mBadMagic.self = some hdr ∧ hdr.magic = cfg0.magic ∧
        (hdr.version < cfg0.versionMin ∨ hdr.version > cfg0.version)) ∧
    (((plugin_load cfg0 "x.so" (some mBadMagic) []).err =
        some LoadError.notAPlugin ∨
      (plugin_load cfg0 "x.so" (some mBadMagic) []).err =
        some LoadError.incompatibleVersion) →
      (plugin_load cfg0 "x.so" (some mBadMagic) []).st = [] ∧
      (plugin_load cfg0 "x.so" (some mBadMagic) []).ret = none) :=
  load_error_classification cfg0 "x.so" mBadMagic []

/-- C5: the init hook is invoked only for plugins of kind Transport,
Playlist, Input or Effect and only when the hook is present; and when such
a hook returns false, `plugin_load` fails with `InitFailed`, closes the
module, and leaves the loaded-set unchanged — no partial state. -/
theorem init_hook_discipline (cfg : Config) (fn : String) (m : GModule)
    (st : List LoadedModule) :
    (Event.initCall fn ∈ (plugin_load cfg fn (some m) st).events →
      ∃ hdr, m.self = some hdr ∧ fourKind hdr.type = true ∧
        hdr.hasInit = true) ∧
    (∀ hdr, m.self = some hdr → hdr.magic = cfg.magic →
      cfg.versionMin ≤ hdr.version → hdr.version ≤ cfg.version →
      fourKind hdr.type = true → hdr.hasInit = true → hdr.initResult = false →
      (plugin_load cfg fn (some m) st).ret = none ∧
      (plugin_load cfg fn (some m) st).err = some LoadError.initFailed ∧
      (plugin_load cfg fn (some m) st).st = st ∧
      (plugin_load cfg fn (some m) st).events =
        [Event.initCall fn, Event.closeMod fn]) := by
  constructor
  · intro hmem
    rcases hself : m.self with _ | hdr
    · simp [plugin_load, hself] at hmem
    · by_cases h1 : hdr.magic ≠ cfg.magic
      · simp [plugin_load, hself, h1] at hmem
      · by_cases h2 : hdr.version < cfg.versionMin ∨ hdr.version > cfg.version
        · simp [plugin_load, hself, h1, h2] at hmem
        · cases h3 : fourKind hdr.type
          · simp [plugin_load, hself, h1, h2, h3] at hmem
          · cases h4 : hdr.hasInit
            · simp [plugin_load, hself, h1, h2, h3, h4] at hmem
            · exact ⟨hdr, rfl, h3, h4⟩
  · intro hdr hself hmagic hlo hhi h3 h4 h5
    have h2 : ¬ (hdr.version < cfg.versionMin ∨ hdr.version > cfg.version) := by
      omega
    simp [plugin_load, hself, hmagic, h2, h3, h4, h5]

theorem init_hook_discipline_witness :
    (Event.initCall "f.so" ∈ (plugin_load cfg0 "f.so" (some mBadInit) []).events →
      ∃ hdr, mBadInit.self = some hdr ∧ fourKind hdr.type = true ∧
        hdr.hasInit = true) ∧
    (∀ hdr, mBadInit.self = some hdr → hdr.magic = cfg0.magic →
      cfg0.versionMin ≤ hdr.version → hdr.version ≤ cfg0.version →
      fourKind hdr.type = true → hdr.hasInit = true → hdr.initResult = false →
      (plugin_load cfg0 "f.so" (some mBadInit) []).ret = none ∧
      (plugin_load cfg0 "f.so" (some mBadInit) []).err =
        some LoadError.initFailed ∧
      (plugin_load cfg0 "f.so" (some mBadInit) []).st = [] ∧
      (plugin_load cfg0 "f.so" (some mBadInit) []).events =
        [Event.initCall "f.so", Event.closeMod "f.so"]) :=
  init_hook_discipline cfg0 "f.so" mBadInit []

/-- C10: whenever `plugin_load` fails after the module open succeeded (a
missing or magic-invalid descriptor, an incompatible version, or a failed
init), the module handle opened by that call is closed exactly once and
the loaded-set is unchanged. -/
theorem failed_load_closes_module_once (cfg : Config) (fn : String)
    (m : GModule) (st : List LoadedModule)
    (h : (plugin_load cfg fn (some m) st).ret = none) :
    (plugin_load cfg fn (some m) st).events.count (Event.closeMod fn) = 1 ∧
    (plugin_load cfg fn (some m) st).st = st := by
  rcases hself : m.self with _ | hdr
  · constructor <;>
      simp [plugin_load, hself, List.count_cons, List.count_nil]
  · by_cases h1 : hdr.magic ≠ cfg.magic
    · constructor <;>
        simp [plugin_load, hself, h1, List.count_cons, List.count_nil]
    · by_cases h2 : hdr.version < cfg.versionMin ∨ hdr.version > cfg.version
      · constructor <;>
          simp [plugin_load, hself, h1, h2, List.count_cons, List.count_nil]
      · cases h3 : fourKind hdr.type
        · exfalso; simp [plugin_load, hself, h1, h2, h3] at h
        · cases h4 : hdr.hasInit
          · exfalso; simp [plugin_load, hself, h1, h2, h3, h4] at h
          · cases h5 : hdr.initResult
            · constructor <;>
                simp [plugin_load, hself, h1, h2, h3, h4, h5,
                  List.count_cons, List.count_nil]
            · exfalso; simp [plugin_load, hself, h1, h2, h3, h4, h5] at h

theorem failed_load_closes_module_once_witness :
    (plugin_load cfg0 "x.so" (some mEmpty) []).ret = none ∧
    ((plugin_load cfg0 "x.so" (some mEmpty) []).events.count
        (Event.closeMod "x.so") = 1 ∧
     (plugin_load cfg0 "x.so" (some mEmpty) []).st = []) :=
  ⟨rfl, failed_load_closes_module_once cfg0 "x.so" mEmpty [] rfl⟩

lemma scan_plugin_func_snd (sfx : String) (e : DirEntry) :
    (scan_plugin_func sfx e).2 = false := by
  rcases e with ⟨p, b, stt⟩
  rcases stt with _ | s <;> cases h : str_has_suffix_nocase b sfx <;>
    simp [scan_plugin_func, h]

lemma scan_plugins_cons (sfx : String) (e : DirEntry) (rest : List DirEntry) :
    scan_plugins sfx (e :: rest) =
      (scan_plugin_func sfx e).1 ++ scan_plugins sfx rest := by
  rw [scan_plugins, dir_foreach]
  simp [scan_plugin_func_snd, scan_plugins]

lemma scan_plugin_func_filter_reg (sfx : String) (e : DirEntry) :
    (scan_plugin_func sfx e).1.filter isRegisterEv =
      if isCandidate sfx e then [regEventOf e] else [] := by
  rcases e with ⟨p, b, stt⟩
  rcases stt with _ | s
  · cases h : str_has_suffix_nocase b sfx <;>
      simp [scan_plugin_func, isCandidate, regEventOf, h, isRegisterEv]
  · cases h : str_has_suffix_nocase b sfx <;> cases hr : s.isReg <;>
      simp [scan_plugin_func, isCandidate, regEventOf, h, hr, isRegisterEv]

lemma scan_plugin_func_filter_stat (sfx : String) (e : DirEntry) :
    (scan_plugin_func sfx e).1.filter isStatErrorEv =
      if str_has_suffix_nocase e.basename sfx && e.statResult.isNone then
        [Event.statError e.path]
      else [] := by
  rcases e with ⟨p, b, stt⟩
  rcases stt with _ | s
  · cases h : str_has_suffix_nocase b sfx <;>
      simp [scan_plugin_func, h, isStatErrorEv]
  · cases h : str_has_suffix_nocase b sfx <;> cases hr : s.isReg <;>
      simp [scan_plugin_func, h, hr, isStatErrorEv]

lemma scan_plugins_filter_reg (sfx : String) (entries : List DirEntry) :
    (scan_plugins sfx entries).filter isRegisterEv =
      (entries.filter (isCandidate sfx)).map regEventOf := by
  induction entries with
  | nil => rfl
  | cons e rest ih =>
    rw [scan_plugins_cons, List.filter_append, scan_plugin_func_filter_reg,
      ih, List.filter_cons]
    cases h : isCandidate sfx e <;> simp [h]

lemma scan_plugins_filter_stat (sfx : String) (entries : List DirEntry) :
    (scan_plugins sfx entries).filter isStatErrorEv =
      (entries.filter
        (fun e => str_has_suffix_nocase e.basename sfx &&
          e.statResult.isNone)).map (fun e => Event.statError e.path) := by
  induction entries with
  | nil => rfl
  | cons e rest ih =>
    rw [scan_plugins_cons, List.filter_append, scan_plugin_func_filter_stat,
      ih, List.filter_cons]
    cases h : str_has_suffix_nocase e.basename sfx && e.statResult.isNone <;>
      simp [h]

/-- C8: scanning a directory registers exactly the candidate entries —
those whose basename ends with the plugin suffix case-insensitively and
that stat as regular files — each with its `(path, mtime)`, so a tree with
N candidates yields exactly N registrations; entries whose stat fails are
reported as stat errors and only they are skipped, without aborting the
rest of the scan. -/
theorem scan_registers_exactly_candidates (sfx : String)
    (entries : List DirEntry) :
    (scan_plugins sfx entries).filter isRegisterEv =
      (entries.filter (isCandidate sfx)).map regEventOf ∧
    ((scan_plugins sfx entries).filter isRegisterEv).length =
      (entries.filter (isCandidate sfx)).length ∧
    (scan_plugins sfx entries).filter isStatErrorEv =
      (entries.filter
        (fun e => str_has_suffix_nocase e.basename sfx &&
          e.statResult.isNone)).map (fun e => Event.statError e.path) := by
  refine ⟨scan_plugins_filter_reg sfx entries, ?_,
    scan_plugins_filter_stat sfx entries⟩
  rw [scan_plugins_filter_reg sfx entries, List.length_map]

lemma scan_plugin_func_events (sfx : String) (e : DirEntry) :
    ∀ ev ∈ (scan_plugin_func sfx e).1,
      (isRegisterEv ev || isStatErrorEv ev) = true := by
  intro ev hev
  rcases e with ⟨p, b, stt⟩
  rcases stt with _ | s
  · cases h : str_has_suffix_nocase b sfx <;>
      simp [scan_plugin_func, h] at hev <;>
      simp [hev, isRegisterEv, isStatErrorEv]
  · cases h : str_has_suffix_nocase b sfx <;> cases hr : s.isReg <;>
      simp [scan_plugin_func, h, hr] at hev <;>
      simp [hev, isRegisterEv, isStatErrorEv]

lemma scan_plugins_events (sfx : String) (entries : List DirEntry) :
    ∀ ev ∈ scan_plugins sfx entries,
      (isRegisterEv ev || isStatErrorEv ev) = true := by
  induction entries with
  | nil => intro ev hev; simp [scan_plugins, dir_foreach] at hev
  | cons e rest ih =>
    intro ev hev
    rw [scan_plugins_cons] at hev
    rcases List.mem_append.1 hev with h | h
    · exact scan_plugin_func_events sfx e ev h
    · exact ih ev h

lemma scan_plugins_filter_other (sfx : String) (entries : List DirEntry)
    (p : Event → Bool)
    (hp : ∀ ev, (isRegisterEv ev || isStatErrorEv ev) = true → p ev = false) :
    (scan_plugins sfx entries).filter p = [] := by
  rw [List.filter_eq_nil_iff]
  intro a ha
  simp [hp a (scan_plugins_events sfx entries a ha)]

lemma scan_loop_filter_scanDir (sfx : String)
    (contents : String → List DirEntry) (dirs : List String) :
    (scan_loop sfx contents dirs).filter isScanDirEv =
      dirs.map Event.scanDir := by
  induction dirs with
  | nil => rfl
  | cons d rest ih =>
    show (Event.scanDir d ::
        (scan_plugins sfx (contents d) ++ scan_loop sfx contents rest)).filter
        isScanDirEv = _
    rw [List.filter_cons, List.filter_append, ih,
      scan_plugins_filter_other sfx _ isScanDirEv
        (by intro ev hev; cases ev <;>
          simp_all [isRegisterEv, isStatErrorEv, isScanDirEv])]
    simp [isScanDirEv]

lemma scan_loop_filter_none (sfx : String)
    (contents : String → List DirEntry) (dirs : List String)
    (p : Event → Bool)
    (hscan : ∀ d, p (Event.scanDir d) = false)
    (hp : ∀ ev, (isRegisterEv ev || isStatErrorEv ev) = true → p ev = false) :
    (scan_loop sfx contents dirs).filter p = [] := by
  induction dirs with
  | nil => rfl
  | cons d rest ih =>
    show (Event.scanDir d ::
        (scan_plugins sfx (contents d) ++ scan_loop sfx contents rest)).filter
        p = []
    rw [List.filter_cons, List.filter_append, ih,
      scan_plugins_filter_other sfx _ p hp]
    simp [hscan d]

/-- C9: `plugin_system_init` first loads the persisted registry, then
scans exactly the seven kind subdirectories in the fixed order Transport,
Container, Input, Output, Effect, General, Visualization, and prunes the
registry exactly once, as the very last step — after every directory scan
has completed. -/
theorem plugin_system_init_order (sfx : String)
    (contents : String → List DirEntry) :
    (plugin_system_init sfx contents).head? = some Event.registryLoad ∧
    (plugin_system_init sfx contents).filter isRegistryLoadEv =
      [Event.registryLoad] ∧
    (plugin_system_init sfx contents).filter isScanDirEv =
      plugin_dir_list.map Event.scanDir ∧
    (plugin_system_init sfx contents).filter isPruneEv =
      [Event.registryPrune] ∧
    (plugin_system_init sfx contents).getLast? = some Event.registryPrune := by
  refine ⟨rfl, ?_, ?_, ?_, ?_⟩
  · show (Event.registryLoad ::
        (scan_loop sfx contents plugin_dir_list ++
          [Event.registryPrune])).filter isRegistryLoadEv = _
    rw [List.filter_cons, List.filter_append,
      scan_loop_filter_none sfx contents plugin_dir_list isRegistryLoadEv
        (by intro d; rfl)
        (by intro ev hev; cases ev <;>
          simp_all [isRegisterEv, isStatErrorEv, isRegistryLoadEv])]
    simp [isRegistryLoadEv]
  · show (Event.registryLoad ::
        (scan_loop sfx contents plugin_dir_list ++
          [Event.registryPrune])).filter isScanDirEv = _
    rw [List.filter_cons, List.filter_append,
      scan_loop_filter_scanDir sfx contents plugin_dir_list]
    simp [isScanDirEv]
  · show (Event.registryLoad ::
        (scan_loop sfx contents plugin_dir_list ++
          [Event.registryPrune])).filter isPruneEv = _
    rw [List.filter_cons, List.filter_append,
      scan_loop_filter_none sfx contents plugin_dir_list isPruneEv
        (by intro d; rfl)
        (by intro ev hev; cases ev <;>
          simp_all [isRegisterEv, isStatErrorEv, isPruneEv])]
    simp [isPruneEv]
  · show (Event.registryLoad ::
        (scan_loop sfx contents plugin_dir_list ++
          [Event.registryPrune])).getLast? = _
    rw [← List.cons_append]
    exact List.getLast?_concat _
